import Mathlib

/-!
Shallow embedding of the execution-slicing engine (TWAP / VWAP strategies)
and the data loader, translated from the Python source:
  src/executor.py                              (execute_twap)
  src/execution_engine/strategies/vwap.py      (execute_vwap)
  src/execution_engine/models/order.py         (Order, ExecutionSlice, ExecutionResult)
  src/execution_engine/data/loader.py          (load_data)

Modelling conventions:
* Float values are modelled as rationals (ℚ); the algorithms only add,
  multiply and divide, so all claimed identities are exact over ℚ.
* A pandas NaN volume is modelled as `none` in an `Option ℚ` field.
* Python exceptions (IndexError from `.iloc`, ZeroDivisionError from `/`,
  the missing-argument error from `fillna()`) become `Except.error`;
  `logger.warning` calls have no semantic effect and are dropped.
* `pd.Timestamp` dates are modelled as an opaque `Nat` tag.
* Row indices are modelled as `Nat`, matching the zero-based non-negative
  `start_idx` contract of the spec.
-/

/-- One daily OHLCV bar (only the fields the engine reads: Date, Close, Volume).
`volume = none` models a missing / NaN volume. -/
structure Bar where
  date : Nat
  close : ℚ
  volume : Option ℚ
deriving Repr, DecidableEq

/-- `Order.direction` literal type. -/
inductive Direction where
  | buy
  | sell
deriving Repr, DecidableEq

/-- An order: size (number of shares), direction, number of slices. -/
structure Order where
  size : ℚ
  direction : Direction
  numSlices : Nat
deriving Repr, DecidableEq

/-- One piece of the order execution. -/
structure ExecutionSlice where
  day : Nat
  date : Nat
  size : ℚ
  price : ℚ
  cost : ℚ
deriving Repr, DecidableEq

/-- Result of one execution run. -/
structure ExecutionResult where
  slices : List ExecutionSlice
  total_cost : ℚ
  avg_price : ℚ
  benchmark_price : ℚ
  slippage_bps : ℚ
deriving Repr, DecidableEq

/-- Pure-Python float division (plain `float`/`int` operands): raises
ZeroDivisionError on a zero divisor. This is the semantics of the
`slice_size` division in executor.py (dataclass fields) and of all the
divisions in vwap.py, whose operands go through `float(...)` casts. -/
def pydiv (a b : ℚ) : Except String ℚ :=
  if b = 0 then .error "ZeroDivisionError" else .ok (a / b)

/-- Numpy float64 scalar division, as in executor.py where the operands come
from DataFrame row access with no `float(...)` cast: division by zero does
NOT raise (it yields nan/inf with a RuntimeWarning and the call completes).
ℚ cannot represent nan/inf, so a zero divisor produces ℚ's junk quotient 0
here; no theorem reads the affected fields on such degenerate runs. -/
def npdiv (a b : ℚ) : ℚ :=
  a / b

/-- `df.iloc[i]` positional row access: raises IndexError when out of range. -/
def iloc {α : Type} (df : List α) (i : Nat) : Except String α :=
  match df.get? i with
  | some x => .ok x
  | none => .error "IndexError"

/-- The bar at position `k`, with a junk default outside the range
(used only to state results; the executable code goes through `iloc`). -/
def nthBar (df : List Bar) (k : Nat) : Bar :=
  (df.get? k).getD ⟨0, 0, none⟩

/-- A bar's volume as used in arithmetic after the NaN fill: NaN counts as 0. -/
def volOf (b : Bar) : ℚ :=
  b.volume.getD 0

/-- The TWAP loop `for i in range(num_slices)`, run for `n` more iterations
starting at loop counter `i`: each iteration reads the row at
`start_idx + i` (IndexError past the end) and builds one slice priced at
that day's close; the list is built in traversal order, and the first
IndexError aborts the whole loop exactly as the Python exception does. -/
def twapSlicesFrom (df : List Bar) (slice_size : ℚ) (start_idx : Nat) :
    Nat → Nat → Except String (List ExecutionSlice)
  | _, 0 => .ok []
  | i, n + 1 =>
    (iloc df (start_idx + i)).bind fun row =>
    (twapSlicesFrom df slice_size start_idx (i + 1) n).bind fun rest =>
    .ok (⟨i + 1, row.date, slice_size, row.close, row.close * slice_size⟩ :: rest)

/-- `total_cost` accumulation `total_cost += slice_cost` over the slice list. -/
def accumCost (slices : List ExecutionSlice) : ℚ :=
  slices.foldl (fun acc s => acc + s.cost) 0

/-- `execute_twap(df, order, start_idx)` from src/executor.py.
`slice_size = order.size / order.num_slices` is a pure-Python division of
the dataclass fields (ZeroDivisionError when `num_slices = 0`); the loop
prices each slice at its day's close; `benchmark_price` is the close at
absolute index `start_idx` of the full data. `total_cost` and
`benchmark_price` are numpy float64 scalars (no `float(...)` casts in this
file), so the `avg_price` and slippage divisions never raise: with a zero
divisor they complete with nan/inf, modelled by `npdiv`'s junk quotient. -/
def execute_twap (df : List Bar) (order : Order) (start_idx : Nat) :
    Except String ExecutionResult :=
  (pydiv order.size (order.numSlices : ℚ)).bind fun slice_size =>
  (twapSlicesFrom df slice_size start_idx 0 order.numSlices).bind fun slices =>
  let total_cost := accumCost slices
  let avg_price := npdiv total_cost order.size
  (iloc df start_idx).bind fun benchRow =>
  let slippage := npdiv (avg_price - benchRow.close) benchRow.close
  .ok ⟨slices, total_cost, avg_price, benchRow.close, slippage * 10000⟩

/-- `df.iloc[start_idx:end_idx]`: Python slicing truncates silently. -/
def windowOf (df : List Bar) (start_idx num : Nat) : List Bar :=
  (df.drop start_idx).take num

/-- `window_df["Volume"].fillna(0)` applied to one row. -/
def fillVolume (b : Bar) : Bar :=
  { b with volume := some (b.volume.getD 0) }

/-- The conditional NaN fill of the VWAP window: `fillna(0)` on the Volume
column when any volume is missing, otherwise the window is left as is. -/
def vwapFilled (w : List Bar) : List Bar :=
  if w.any (fun b => b.volume.isNone) then w.map fillVolume else w

/-- The per-row allocation fractions `volume_pct` of the VWAP window:
`1.0 / len(window_df)` for every row when the total volume is 0
(ZeroDivisionError on an empty window), else `volume / total_volume`. -/
def vwapPcts (window : List Bar) : Except String (List ℚ) :=
  let total_volume := (window.map volOf).sum
  if total_volume = 0 then
    (pydiv 1 (window.length : ℚ)).bind fun u =>
    .ok (window.map fun _ => u)
  else
    .ok (window.map fun b => volOf b / total_volume)

/-- The VWAP `iterrows` loop: one slice per window row, sized by the
`slice_size` column, priced at that row's close, days numbered from 1. -/
def vwapSlices : Nat → List Bar → List ℚ → List ExecutionSlice
  | _, [], _ => []
  | _, _ :: _, [] => []
  | i, b :: bs, sz :: szs =>
    ⟨i + 1, b.date, sz, b.close, b.close * sz⟩ :: vwapSlices (i + 1) bs szs

/-- `execute_vwap(df, order, start_idx)` from
src/execution_engine/strategies/vwap.py.
The window is `df.iloc[start_idx : start_idx + num_slices]` (truncating);
NaN volumes are filled with 0 when any is present; allocation fractions are
volume-proportional with a uniform fallback at zero total volume;
`slice_size = volume_pct * order.size`. Note the benchmark row is read with
`window_df.iloc[start_idx]`, i.e. positionally inside the WINDOW, not the
full data frame. -/
def execute_vwap (df : List Bar) (order : Order) (start_idx : Nat) :
    Except String ExecutionResult :=
  let window := vwapFilled (windowOf df start_idx order.numSlices)
  (vwapPcts window).bind fun pcts =>
  let sizes := pcts.map fun p => p * order.size
  let slices := vwapSlices 0 window sizes
  let total_cost := accumCost slices
  (pydiv total_cost order.size).bind fun avg_price =>
  (iloc window start_idx).bind fun benchRow =>
  (pydiv (avg_price - benchRow.close) benchRow.close).bind fun slippage =>
  .ok ⟨slices, total_cost, avg_price, benchRow.close, slippage * 10000⟩

/-- `df["Volume"].fillna()` with neither a value nor a method:
pandas raises (must specify a fill value or method). -/
def fillnaNoValue (_vols : List (Option ℚ)) : Except String (List (Option ℚ)) :=
  .error "fillna: must specify a fill value or method"

/-- Reattach a volume column to the rows. -/
def setVolumes (df : List Bar) (vols : List (Option ℚ)) : List Bar :=
  List.zipWith (fun b v => { b with volume := v }) df vols

/-- `load_data` from src/execution_engine/data/loader.py, after CSV parsing:
when any Volume is missing it calls the fill operation with no fill value
(which raises); otherwise the parsed table is returned unchanged. -/
def load_data (df : List Bar) : Except String (List Bar) :=
  if df.any (fun r => r.volume.isNone) then
    (fillnaNoValue (df.map (fun r => r.volume))).bind fun vols =>
    .ok (setVolumes df vols)
  else
    .ok df

/-- Total (NaN-as-0) volume over the execution window, as VWAP sums it. -/
def windowVolume (df : List Bar) (start_idx num : Nat) : ℚ :=
  ((windowOf df start_idx num).map volOf).sum

/-- The five-bar series of the spec's concrete scenario:
closes `[100, 101, 102, 103, 104]`, dates day 1..5, uniform volume 10. -/
def demoBars : List Bar :=
  [⟨1, 100, some 10⟩, ⟨2, 101, some 10⟩, ⟨3, 102, some 10⟩,
   ⟨4, 103, some 10⟩, ⟨5, 104, some 10⟩]

/-- The spec's concrete-scenario order: 1000 shares, buy, 5 slices. -/
def demoOrder : Order := ⟨1000, .buy, 5⟩

/-- The execution result of the spec's concrete scenario (both policies
produce it on `demoBars` from start index 0, volumes being uniform). -/
def demoResult : ExecutionResult :=
  ⟨[⟨1, 1, 200, 100, 20000⟩, ⟨2, 2, 200, 101, 20200⟩,
    ⟨3, 3, 200, 102, 20400⟩, ⟨4, 4, 200, 103, 20600⟩,
    ⟨5, 5, 200, 104, 20800⟩], 102000, 102, 100, 200⟩

/-- A two-bar series whose window volumes are all zero. -/
def zeroVolBars : List Bar := [⟨1, 100, some 0⟩, ⟨2, 100, some 0⟩]

/-- The result both policies produce on `zeroVolBars` for a 10-share,
2-slice order from start index 0 (uniform fallback). -/
def zeroVolResult : ExecutionResult :=
  ⟨[⟨1, 1, 5, 100, 500⟩, ⟨2, 2, 5, 100, 500⟩], 1000, 100, 100, 0⟩

/-! ### Basic lemmas about the building blocks -/

theorem pydiv_eq_ok (a : ℚ) {b : ℚ} (hb : b ≠ 0) : pydiv a b = .ok (a / b) := by
  simp [pydiv, hb]

theorem pydiv_ok_inv {a b c : ℚ} (h : pydiv a b = .ok c) : b ≠ 0 ∧ c = a / b := by
  by_cases hb : b = 0
  · simp [pydiv, hb] at h
  · simp only [pydiv, hb, if_false, Except.ok.injEq] at h
    exact ⟨hb, h.symm⟩

theorem ok_bind {α β : Type} (x : α) (f : α → Except String β) :
    (Except.ok x : Except String α).bind f = f x := rfl

theorem bind_ok_inv {α β : Type} {e : Except String α} {f : α → Except String β} {r : β}
    (h : e.bind f = .ok r) : ∃ x, e = .ok x ∧ f x = .ok r := by
  match e with
  | .error err => simp [Except.bind] at h
  | .ok x => exact ⟨x, rfl, h⟩

theorem iloc_ok (df : List Bar) {i : Nat} (h : i < df.length) :
    iloc df i = .ok (nthBar df i) := by
  unfold iloc nthBar
  rw [List.get?_eq_getElem?, List.getElem?_eq_getElem h]
  rfl

theorem iloc_ok_inv {df : List Bar} {i : Nat} {b : Bar} (h : iloc df i = .ok b) :
    i < df.length ∧ nthBar df i = b := by
  unfold iloc at h
  rw [List.get?_eq_getElem?] at h
  match hg : df[i]? with
  | some x =>
    rw [hg] at h
    have hx : x = b := by simpa using h
    have hlen : i < df.length := by
      by_contra hle
      rw [List.getElem?_eq_none (by omega)] at hg
      exact Option.noConfusion hg
    subst hx
    exact ⟨hlen, by simp [nthBar, hg]⟩
  | none => rw [hg] at h; simp at h

theorem nthBar_eq_getElem (df : List Bar) {i : Nat} (h : i < df.length) :
    nthBar df i = df[i] := by
  simp [nthBar, List.getElem?_eq_getElem h]

theorem accumCost_eq_sum (l : List ExecutionSlice) :
    accumCost l = (l.map (fun sl => sl.cost)).sum := by
  have key : ∀ (t : List ExecutionSlice) (c : ℚ),
      t.foldl (fun acc s => acc + s.cost) c = c + (t.map (fun sl => sl.cost)).sum := by
    intro t
    induction t with
    | nil => intro c; simp
    | cons a t ih => intro c; simp [ih, add_assoc]
  simpa [accumCost] using key l 0

/-! ### Window and fill lemmas -/

theorem windowOf_length (df : List Bar) {s n : Nat} (h : s + n ≤ df.length) :
    (windowOf df s n).length = n := by
  simp [windowOf]
  omega

theorem windowOf_get? (df : List Bar) {s n : Nat} (j : Nat) (hj : j < n) :
    (windowOf df s n).get? j = df.get? (s + j) := by
  simp [windowOf, List.getElem?_take_of_lt hj, List.getElem?_drop]

theorem vwapFilled_length (w : List Bar) : (vwapFilled w).length = w.length := by
  unfold vwapFilled
  split <;> simp

theorem vwapFilled_map_volOf (w : List Bar) :
    (vwapFilled w).map volOf = w.map volOf := by
  unfold vwapFilled
  split
  · simp [List.map_map, Function.comp_def, volOf, fillVolume]
  · rfl

theorem vwapFilled_of_no_nan {w : List Bar}
    (h : w.any (fun b => b.volume.isNone) = false) : vwapFilled w = w := by
  simp [vwapFilled, h]

/-! ### TWAP loop lemmas -/

theorem twapSlicesFrom_total (df : List Bar) (ss : ℚ) (s : Nat) :
    ∀ (n i : Nat), s + i + n ≤ df.length →
      ∃ l, twapSlicesFrom df ss s i n = .ok l := by
  intro n
  induction n with
  | zero => exact fun i _ => ⟨[], rfl⟩
  | succ m ih =>
    intro i hle
    have hi : s + i < df.length := by omega
    obtain ⟨l, hl⟩ := ih (i + 1) (by omega)
    refine ⟨⟨i + 1, (nthBar df (s + i)).date, ss, (nthBar df (s + i)).close,
        (nthBar df (s + i)).close * ss⟩ :: l, ?_⟩
    simp [twapSlicesFrom, iloc_ok df hi, hl, ok_bind]

theorem twapSlicesFrom_ok_shape (df : List Bar) (ss : ℚ) (s : Nat) :
    ∀ (n i : Nat) (l : List ExecutionSlice),
      twapSlicesFrom df ss s i n = .ok l →
      l.length = n ∧ (∀ sl ∈ l, sl.size = ss) ∧
        ∀ (j : Nat) (hj : j < l.length),
          (l.get ⟨j, hj⟩).price = (nthBar df (s + i + j)).close := by
  intro n
  induction n with
  | zero =>
    intro i l h
    have hl : l = [] := by simpa [twapSlicesFrom] using h
    subst hl
    exact ⟨rfl, by simp, fun j hj => absurd hj (by simp)⟩
  | succ m ih =>
    intro i l h
    unfold twapSlicesFrom at h
    obtain ⟨row, hrow, h⟩ := bind_ok_inv h
    obtain ⟨rest, hrest, h⟩ := bind_ok_inv h
    have hl : (⟨i + 1, row.date, ss, row.close, row.close * ss⟩ :: rest) = l := by
      simpa using h
    subst hl
    obtain ⟨hlen, hsize, hprice⟩ := ih (i + 1) rest hrest
    obtain ⟨hlt, hrow_eq⟩ := iloc_ok_inv hrow
    refine ⟨by simp [hlen], ?_, ?_⟩
    · intro sl hsl
      rcases List.mem_cons.mp hsl with h1 | h2
      · rw [h1]
      · exact hsize sl h2
    · intro j hj
      match j with
      | 0 => simpa using congrArg Bar.close hrow_eq.symm
      | j' + 1 =>
        have hj' : j' < rest.length := by simpa using hj
        have := hprice j' hj'
        have harith : s + (i + 1) + j' = s + i + (j' + 1) := by omega
        rw [harith] at this
        simpa using this

/-! ### VWAP loop lemmas -/

theorem vwapSlices_map_size (bs : List Bar) :
    ∀ (i : Nat) (szs : List ℚ), bs.length = szs.length →
      (vwapSlices i bs szs).map (fun sl => sl.size) = szs := by
  induction bs with
  | nil =>
    intro i szs h
    cases szs with
    | nil => rfl
    | cons a t => simp at h
  | cons b bs ih =>
    intro i szs h
    cases szs with
    | nil => simp at h
    | cons sz szs => simp [vwapSlices, ih (i + 1) szs (by simpa using h)]

theorem vwapSlices_length (bs : List Bar) :
    ∀ (i : Nat) (szs : List ℚ), bs.length = szs.length →
      (vwapSlices i bs szs).length = bs.length := by
  induction bs with
  | nil => intro i szs _; rfl
  | cons b bs ih =>
    intro i szs h
    cases szs with
    | nil => simp at h
    | cons sz szs => simp [vwapSlices, ih (i + 1) szs (by simpa using h)]

theorem vwapPcts_ok_inv {w : List Bar} {pcts : List ℚ}
    (h : vwapPcts w = .ok pcts) :
    ((w.map volOf).sum = 0 ∧ (w.length : ℚ) ≠ 0 ∧
        pcts = w.map fun _ => 1 / (w.length : ℚ)) ∨
      ((w.map volOf).sum ≠ 0 ∧
        pcts = w.map fun b => volOf b / (w.map volOf).sum) := by
  unfold vwapPcts at h
  by_cases h0 : (w.map volOf).sum = 0
  · rw [if_pos h0] at h
    obtain ⟨u, hu, h⟩ := bind_ok_inv h
    obtain ⟨hlen, hueq⟩ := pydiv_ok_inv hu
    left
    refine ⟨h0, hlen, ?_⟩
    have : (w.map fun _ => u) = pcts := by simpa using h
    rw [← this, hueq]
  · rw [if_neg h0] at h
    right
    exact ⟨h0, by simpa using h.symm⟩

/-! ### Inversion and construction lemmas for the two engines -/

theorem execute_twap_ok_inv {df : List Bar} {o : Order} {s : Nat}
    {r : ExecutionResult} (h : execute_twap df o s = .ok r) :
    o.numSlices ≠ 0 ∧
      twapSlicesFrom df (o.size / (o.numSlices : ℚ)) s 0 o.numSlices
        = .ok r.slices ∧
      r.total_cost = accumCost r.slices := by
  unfold execute_twap at h
  obtain ⟨ss, hss, h⟩ := bind_ok_inv h
  obtain ⟨slices, hsl, h⟩ := bind_ok_inv h
  obtain ⟨benchRow, hbr, h⟩ := bind_ok_inv h
  have hr : (⟨slices, accumCost slices, npdiv (accumCost slices) o.size,
      benchRow.close,
      npdiv (npdiv (accumCost slices) o.size - benchRow.close) benchRow.close
        * 10000⟩ : ExecutionResult) = r := by simpa using h
  obtain ⟨hnq, hsseq⟩ := pydiv_ok_inv hss
  subst hsseq
  refine ⟨Nat.cast_ne_zero.mp hnq, ?_, ?_⟩
  · rw [← hr]
    exact hsl
  · rw [← hr]

theorem execute_twap_ok_build {df : List Bar} {o : Order} {s : Nat}
    (hn : o.numSlices ≠ 0) (hw : s + o.numSlices ≤ df.length) :
    ∃ l, twapSlicesFrom df (o.size / (o.numSlices : ℚ)) s 0 o.numSlices = .ok l ∧
      execute_twap df o s = .ok
        ⟨l, accumCost l, npdiv (accumCost l) o.size, (nthBar df s).close,
          npdiv (npdiv (accumCost l) o.size - (nthBar df s).close)
            (nthBar df s).close * 10000⟩ := by
  have hnq : (o.numSlices : ℚ) ≠ 0 := Nat.cast_ne_zero.mpr hn
  have hs_lt : s < df.length := by omega
  obtain ⟨l, hl⟩ :=
    twapSlicesFrom_total df (o.size / (o.numSlices : ℚ)) s o.numSlices 0
      (by omega)
  refine ⟨l, hl, ?_⟩
  unfold execute_twap
  rw [pydiv_eq_ok o.size hnq, ok_bind, hl, ok_bind]
  simp only [iloc_ok df hs_lt, ok_bind]

theorem execute_vwap_ok_inv {df : List Bar} {o : Order} {s : Nat}
    {r : ExecutionResult} (h : execute_vwap df o s = .ok r) :
    o.size ≠ 0 ∧
      ∃ pcts, vwapPcts (vwapFilled (windowOf df s o.numSlices)) = .ok pcts ∧
        r.slices = vwapSlices 0 (vwapFilled (windowOf df s o.numSlices))
          (pcts.map fun p => p * o.size) ∧
        r.total_cost = accumCost r.slices := by
  unfold execute_vwap at h
  obtain ⟨pcts, hpcts, h⟩ := bind_ok_inv h
  obtain ⟨avg, havg, h⟩ := bind_ok_inv h
  obtain ⟨benchRow, hbr, h⟩ := bind_ok_inv h
  obtain ⟨slip, hslip, h⟩ := bind_ok_inv h
  have hr : (⟨vwapSlices 0 (vwapFilled (windowOf df s o.numSlices))
        (pcts.map fun p => p * o.size),
      accumCost (vwapSlices 0 (vwapFilled (windowOf df s o.numSlices))
        (pcts.map fun p => p * o.size)),
      avg, benchRow.close, slip * 10000⟩ : ExecutionResult) = r := by
    simpa using h
  obtain ⟨hszq, _⟩ := pydiv_ok_inv havg
  exact ⟨hszq, pcts, hpcts, by rw [← hr], by rw [← hr]⟩

/-! ### Size-conservation helper lemmas -/

theorem twap_sizes_sum (df : List Bar) (o : Order) (s : Nat)
    (r : ExecutionResult) (h : execute_twap df o s = .ok r) :
    (r.slices.map (fun sl => sl.size)).sum = o.size := by
  obtain ⟨hn0, hslices, -⟩ := execute_twap_ok_inv h
  obtain ⟨hlen, hsizes, -⟩ :=
    twapSlicesFrom_ok_shape df (o.size / (o.numSlices : ℚ)) s o.numSlices 0
      r.slices hslices
  have hnq : (o.numSlices : ℚ) ≠ 0 := Nat.cast_ne_zero.mpr hn0
  have hsum := List.sum_eq_card_nsmul (r.slices.map fun sl => sl.size)
      (o.size / (o.numSlices : ℚ)) ?_
  · rw [hsum]
    simp only [List.length_map, hlen]
    rw [nsmul_eq_mul, ← mul_div_assoc, mul_div_cancel_left₀ _ hnq]
  · intro x hx
    obtain ⟨sl, hsl, rfl⟩ := List.mem_map.mp hx
    exact hsizes sl hsl

theorem vwap_sizes_map (df : List Bar) (o : Order) (s : Nat)
    (r : ExecutionResult) (h : execute_vwap df o s = .ok r) :
    ∃ pcts, vwapPcts (vwapFilled (windowOf df s o.numSlices)) = .ok pcts ∧
      r.slices.map (fun sl => sl.size) = pcts.map (fun p => p * o.size) := by
  obtain ⟨hsz0, pcts, hpcts, hsl, -⟩ := execute_vwap_ok_inv h
  refine ⟨pcts, hpcts, ?_⟩
  rw [hsl]
  apply vwapSlices_map_size
  rcases vwapPcts_ok_inv hpcts with ⟨-, -, hpe⟩ | ⟨-, hpe⟩ <;>
    simp [hpe]

theorem vwap_sizes_sum (df : List Bar) (o : Order) (s : Nat)
    (r : ExecutionResult) (h : execute_vwap df o s = .ok r) :
    (r.slices.map (fun sl => sl.size)).sum = o.size := by
  obtain ⟨pcts, hpcts, hmap⟩ := vwap_sizes_map df o s r h
  rw [hmap]
  rcases vwapPcts_ok_inv hpcts with ⟨h0, hlenq, hpe⟩ | ⟨h0, hpe⟩
  · rw [hpe, List.map_map]
    simp only [Function.comp_def]
    rw [List.map_const', List.sum_replicate, nsmul_eq_mul]
    field_simp
  · rw [hpe, List.map_map]
    simp only [Function.comp_def, div_mul_eq_mul_div, mul_div_assoc]
    rw [List.sum_map_mul_right]
    field_simp

/-! ### Claim theorems -/

/-- C1: the claim says `benchmark_price` equals the close at absolute index
`start_idx` for BOTH policies. The code contradicts it: `execute_vwap` reads
the benchmark with `window_df.iloc[start_idx]`, positionally inside a window
that already starts at `start_idx`. On closes `[100, 101, 102]` with
`start_idx = 1` and 2 slices, both calls complete, TWAP's benchmark is 101
(the close at index 1) as claimed, but VWAP's is 102 (the close at absolute
index 2). -/
theorem C1_vwap_benchmark_divergence :
    (execute_vwap [⟨1, 100, some 1⟩, ⟨2, 101, some 1⟩, ⟨3, 102, some 1⟩]
        ⟨10, .buy, 2⟩ 1).map (fun r => r.benchmark_price) = .ok 102 ∧
    (execute_twap [⟨1, 100, some 1⟩, ⟨2, 101, some 1⟩, ⟨3, 102, some 1⟩]
        ⟨10, .buy, 2⟩ 1).map (fun r => r.benchmark_price) = .ok 101 := by
  constructor <;>
    norm_num [execute_twap, execute_vwap, twapSlicesFrom, iloc, pydiv, npdiv,
      accumCost, Except.bind, Except.map, vwapFilled, vwapPcts, vwapSlices,
      windowOf, volOf, fillVolume]

/-- C2: the claim says a window overrun (`start_idx + num_slices > len(data)`)
raises a data-exhaustion error and returns no result. The code contradicts
it: on 2 bars with `num_slices = 3` from index 0, `execute_twap` only logs a
warning and then crashes with an untyped IndexError from `iloc`, while
`execute_vwap` silently truncates the window and RETURNS a result with just
2 slices. -/
theorem C2_overrun_not_rejected :
    execute_twap [⟨1, 100, some 1⟩, ⟨2, 101, some 1⟩] ⟨10, .buy, 3⟩ 0
        = .error "IndexError" ∧
    (execute_vwap [⟨1, 100, some 1⟩, ⟨2, 101, some 1⟩] ⟨10, .buy, 3⟩ 0).map
        (fun r => r.slices.length) = .ok 2 := by
  constructor <;>
    norm_num [execute_twap, execute_vwap, twapSlicesFrom, iloc, pydiv, npdiv,
      accumCost, Except.bind, Except.map, vwapFilled, vwapPcts, vwapSlices,
      windowOf, volOf, fillVolume]

/-- C3: conservation of size. For `order.size > 0`, `num_slices ≥ 1` and a
window inside the data, any result either policy returns has slice sizes
summing to exactly `order.size` (exact over ℚ, hence within any
floating-point tolerance). -/
theorem C3_size_conservation (df : List Bar) (o : Order) (s : Nat)
    (_hsz : 0 < o.size) (_hn : 1 ≤ o.numSlices)
    (_hw : s + o.numSlices ≤ df.length) :
    (∀ r, execute_twap df o s = .ok r →
      (r.slices.map (fun sl => sl.size)).sum = o.size) ∧
    (∀ r, execute_vwap df o s = .ok r →
      (r.slices.map (fun sl => sl.size)).sum = o.size) :=
  ⟨fun r h => twap_sizes_sum df o s r h, fun r h => vwap_sizes_sum df o s r h⟩

/-- Witness for C3 at the spec's concrete scenario (TWAP branch). -/
theorem C3_size_conservation_witness :
    (demoResult.slices.map (fun sl => sl.size)).sum = demoOrder.size :=
  (C3_size_conservation demoBars demoOrder 0 (by norm_num [demoOrder])
      (by norm_num [demoOrder]) (by norm_num [demoBars, demoOrder])).1
    demoResult
    (by norm_num [execute_twap, twapSlicesFrom, iloc, pydiv, npdiv, accumCost,
      Except.bind, demoBars, demoOrder, demoResult])

/-- C4: VWAP proportionality. With the window inside the data and nonzero
total window volume, the slice sizes returned by `execute_vwap` are exactly
the per-day volumes scaled by `order.size / total_window_volume`: slice `i`
has size `volume[start_idx + i] / total_volume * order.size`. -/
theorem C4_vwap_proportionality (df : List Bar) (o : Order) (s : Nat)
    (_hw : s + o.numSlices ≤ df.length)
    (hV : windowVolume df s o.numSlices ≠ 0)
    (r : ExecutionResult) (h : execute_vwap df o s = .ok r) :
    r.slices.map (fun sl => sl.size)
      = (windowOf df s o.numSlices).map
          (fun b => volOf b / windowVolume df s o.numSlices * o.size) := by
  obtain ⟨pcts, hpcts, hmap⟩ := vwap_sizes_map df o s r h
  have hVW : ((vwapFilled (windowOf df s o.numSlices)).map volOf).sum
      = windowVolume df s o.numSlices := by
    rw [vwapFilled_map_volOf]; rfl
  rcases vwapPcts_ok_inv hpcts with ⟨h0, -, -⟩ | ⟨-, hpe⟩
  · rw [hVW] at h0
    exact absurd h0 hV
  · rw [hmap, hpe, List.map_map]
    simp only [Function.comp_def, hVW]
    have hfac : ∀ (w : List Bar),
        w.map (fun b => volOf b / windowVolume df s o.numSlices * o.size)
          = (w.map volOf).map
              (fun v => v / windowVolume df s o.numSlices * o.size) := by
      intro w
      rw [List.map_map]
      rfl
    rw [hfac, hfac, vwapFilled_map_volOf]

/-- Witness for C4 at the spec's uniform-volume concrete scenario. -/
theorem C4_vwap_proportionality_witness :
    demoResult.slices.map (fun sl => sl.size)
      = (windowOf demoBars 0 demoOrder.numSlices).map
          (fun b => volOf b / windowVolume demoBars 0 demoOrder.numSlices
            * demoOrder.size) :=
  C4_vwap_proportionality demoBars demoOrder 0
    (by norm_num [demoBars, demoOrder])
    (by norm_num [windowVolume, windowOf, volOf, demoBars, demoOrder])
    demoResult
    (by norm_num [execute_vwap, vwapFilled, vwapPcts, vwapSlices, windowOf,
      volOf, fillVolume, iloc, pydiv, accumCost, Except.bind, demoBars,
      demoOrder, demoResult])

/-- C5 counterexample: the claim quantifies over EVERY order with the window
inside the data, but at `num_slices = 0` (window fits: 0 + 0 ≤ 1) the
pure-Python division `slice_size = order.size / order.num_slices` raises
ZeroDivisionError, so the call returns no result and produces no slices at
all — contradicting "produces exactly order.num_slices slices". -/
theorem C5_counterexample :
    execute_twap [⟨1, 100, some 1⟩] ⟨10, .buy, 0⟩ 0
      = .error "ZeroDivisionError" := by
  norm_num [execute_twap, pydiv, Except.bind]

/-- C5 (amended): `num_slices = 0` is the only input the claim ranges over
on which the call aborts (the `avg_price` and slippage divisions are numpy
float64 divisions and never raise). With `num_slices ≥ 1` and the window
inside the data, `execute_twap` returns a result with exactly `num_slices`
slices, all of size `order.size / num_slices`, slice `i` priced at the
close of index `start_idx + i`. -/
theorem C5_twap_uniformity_amended (df : List Bar) (o : Order) (s : Nat)
    (hn : 1 ≤ o.numSlices) (hw : s + o.numSlices ≤ df.length) :
    (execute_twap df o s).map (fun r => r.slices.length) = .ok o.numSlices ∧
    (execute_twap df o s).map (fun r => r.slices.map fun sl => sl.size)
        = .ok (List.replicate o.numSlices (o.size / (o.numSlices : ℚ))) ∧
    (execute_twap df o s).map (fun r => r.slices.map fun sl => sl.price)
        = .ok ((List.range o.numSlices).map fun i =>
            (nthBar df (s + i)).close) := by
  obtain ⟨l, hl, hexec⟩ := execute_twap_ok_build (by omega) hw
  obtain ⟨hlen, hsizes, hprices⟩ :=
    twapSlicesFrom_ok_shape df (o.size / (o.numSlices : ℚ)) s o.numSlices 0
      l hl
  rw [hexec]
  refine ⟨by simpa [Except.map] using hlen, ?_, ?_⟩
  · simp only [Except.map]
    congr 1
    rw [List.eq_replicate_iff]
    refine ⟨by simpa using hlen, ?_⟩
    intro b hb'
    obtain ⟨sl, hsl, rfl⟩ := List.mem_map.mp hb'
    exact hsizes sl hsl
  · simp only [Except.map]
    congr 1
    apply List.ext_getElem
    · simpa using hlen
    · intro n h1 h2
      have hn' : n < l.length := by simpa using h1
      have hp := hprices n hn'
      simp only [List.get_eq_getElem] at hp
      simp only [List.getElem_map, List.getElem_range]
      simpa using hp

/-- Witness for C5 (amended) at the spec's concrete scenario. -/
theorem C5_twap_uniformity_amended_witness :
    (execute_twap demoBars demoOrder 0).map (fun r => r.slices.length)
        = .ok demoOrder.numSlices ∧
    (execute_twap demoBars demoOrder 0).map
        (fun r => r.slices.map fun sl => sl.size)
        = .ok (List.replicate demoOrder.numSlices
            (demoOrder.size / (demoOrder.numSlices : ℚ))) ∧
    (execute_twap demoBars demoOrder 0).map
        (fun r => r.slices.map fun sl => sl.price)
        = .ok ((List.range demoOrder.numSlices).map fun i =>
            (nthBar demoBars (0 + i)).close) :=
  C5_twap_uniformity_amended demoBars demoOrder 0 (by norm_num [demoOrder])
    (by norm_num [demoBars, demoOrder])

/-- C6 counterexample: the claim says `execute_vwap` "does not fail" on an
all-zero-volume window inside the data. But with closes 100, all volumes 0,
`start_idx = 2` and `num_slices = 1` (window fits: 2 + 1 ≤ 3) the call
raises IndexError, because the benchmark row is read with
`window_df.iloc[start_idx]` inside the 1-row window. -/
theorem C6_counterexample :
    execute_vwap [⟨1, 100, some 0⟩, ⟨2, 100, some 0⟩, ⟨3, 100, some 0⟩]
        ⟨10, .buy, 1⟩ 2 = .error "IndexError" := by
  norm_num [execute_vwap, vwapFilled, vwapPcts, vwapSlices, windowOf, volOf,
    fillVolume, iloc, pydiv, accumCost, Except.bind]

/-- C6 (amended): over a window inside the data in which every bar's volume
is 0, whenever BOTH calls complete, `execute_vwap` falls back to the uniform
allocation (every slice of size `order.size / num_slices`, i.e. fraction
`1/num_slices` per day) and its slice sizes are identical to
`execute_twap`'s on the same inputs. -/
theorem C6_zero_volume_fallback_amended (df : List Bar) (o : Order) (s : Nat)
    (hw : s + o.numSlices ≤ df.length)
    (hv : ∀ b ∈ windowOf df s o.numSlices, b.volume = some 0)
    (rv rt : ExecutionResult)
    (hvw : execute_vwap df o s = .ok rv)
    (htw : execute_twap df o s = .ok rt) :
    rv.slices.map (fun sl => sl.size)
        = List.replicate o.numSlices (o.size / (o.numSlices : ℚ)) ∧
      rv.slices.map (fun sl => sl.size)
        = rt.slices.map (fun sl => sl.size) := by
  obtain ⟨hn0, hslices, -⟩ := execute_twap_ok_inv htw
  obtain ⟨htlen, htsizes, -⟩ :=
    twapSlicesFrom_ok_shape df (o.size / (o.numSlices : ℚ)) s o.numSlices 0
      rt.slices hslices
  have htrep : rt.slices.map (fun sl => sl.size)
      = List.replicate o.numSlices (o.size / (o.numSlices : ℚ)) := by
    rw [List.eq_replicate_iff]
    refine ⟨by simp [htlen], ?_⟩
    intro b hb
    obtain ⟨sl, hsl, rfl⟩ := List.mem_map.mp hb
    exact htsizes sl hsl
  have hwlen : (windowOf df s o.numSlices).length = o.numSlices :=
    windowOf_length df hw
  have hnofill : vwapFilled (windowOf df s o.numSlices)
      = windowOf df s o.numSlices := by
    apply vwapFilled_of_no_nan
    rw [List.any_eq_false]
    intro b hb
    rw [hv b hb]
    simp
  have hsum0 : ((windowOf df s o.numSlices).map volOf).sum = 0 := by
    have hrep : (windowOf df s o.numSlices).map volOf
        = List.replicate (windowOf df s o.numSlices).length 0 := by
      rw [List.eq_replicate_iff]
      refine ⟨by simp, ?_⟩
      intro q hq
      obtain ⟨b, hb, rfl⟩ := List.mem_map.mp hq
      rw [volOf, hv b hb]
      rfl
    rw [hrep, List.sum_replicate, smul_zero]
  obtain ⟨pcts, hpcts, hmap⟩ := vwap_sizes_map df o s rv hvw
  rcases vwapPcts_ok_inv hpcts with ⟨-, -, hpe⟩ | ⟨h0, -⟩
  swap
  · rw [hnofill] at h0
    exact absurd hsum0 h0
  rw [hnofill] at hpe
  rw [hpe, List.map_map] at hmap
  simp only [Function.comp_def] at hmap
  rw [List.map_const'] at hmap
  have hvrep : rv.slices.map (fun sl => sl.size)
      = List.replicate o.numSlices (o.size / (o.numSlices : ℚ)) := by
    rw [hmap, hwlen, one_div_mul_eq_div]
  exact ⟨hvrep, by rw [hvrep, htrep]⟩

/-- Witness for C6 (amended) on a two-bar zero-volume series. -/
theorem C6_zero_volume_fallback_amended_witness :
    zeroVolResult.slices.map (fun sl => sl.size)
        = List.replicate 2 ((10 : ℚ) / ((2 : Nat) : ℚ)) ∧
      zeroVolResult.slices.map (fun sl => sl.size)
        = zeroVolResult.slices.map (fun sl => sl.size) :=
  C6_zero_volume_fallback_amended zeroVolBars ⟨10, .buy, 2⟩ 0
    (by norm_num [zeroVolBars])
    (by norm_num [windowOf, zeroVolBars])
    zeroVolResult zeroVolResult
    (by norm_num [execute_vwap, vwapFilled, vwapPcts, vwapSlices, windowOf,
      volOf, fillVolume, iloc, pydiv, accumCost, Except.bind, zeroVolBars,
      zeroVolResult])
    (by norm_num [execute_twap, twapSlicesFrom, iloc, pydiv, npdiv, accumCost,
      Except.bind, zeroVolBars, zeroVolResult])

/-- C7: the spec's concrete scenario. On closes `[100, 101, 102, 103, 104]`
and `Order(size = 1000, buy, num_slices = 5)`, TWAP from index 0 yields 5
slices of size 200 with costs `[20000, 20200, 20400, 20600, 20800]`,
`total_cost = 102000`, `avg_price = 102`, `benchmark_price = 100` and
`slippage_bps = 200` (the fields of `demoResult`). -/
theorem C7_concrete_scenario :
    execute_twap demoBars demoOrder 0 = .ok demoResult := by
  norm_num [execute_twap, twapSlicesFrom, iloc, pydiv, npdiv, accumCost,
    Except.bind, demoBars, demoOrder, demoResult]

/-- C8: cost consistency. Any result either policy returns has
`total_cost` exactly equal to the sum of its slices' costs. -/
theorem C8_cost_consistency (df : List Bar) (o : Order) (s : Nat) :
    (∀ r, execute_twap df o s = .ok r →
      r.total_cost = (r.slices.map (fun sl => sl.cost)).sum) ∧
    (∀ r, execute_vwap df o s = .ok r →
      r.total_cost = (r.slices.map (fun sl => sl.cost)).sum) := by
  constructor
  · intro r h
    obtain ⟨-, -, htc⟩ := execute_twap_ok_inv h
    rw [htc, accumCost_eq_sum]
  · intro r h
    obtain ⟨-, pcts, -, -, htc⟩ := execute_vwap_ok_inv h
    rw [htc, accumCost_eq_sum]

/-- Witness for C8: TWAP on the concrete scenario, VWAP on the zero-volume
series. -/
theorem C8_cost_consistency_witness :
    demoResult.total_cost = (demoResult.slices.map (fun sl => sl.cost)).sum ∧
    zeroVolResult.total_cost
      = (zeroVolResult.slices.map (fun sl => sl.cost)).sum :=
  ⟨(C8_cost_consistency demoBars demoOrder 0).1 demoResult
      (by norm_num [execute_twap, twapSlicesFrom, iloc, pydiv, npdiv, accumCost,
        Except.bind, demoBars, demoOrder, demoResult]),
    (C8_cost_consistency zeroVolBars ⟨10, .buy, 2⟩ 0).2 zeroVolResult
      (by norm_num [execute_vwap, vwapFilled, vwapPcts, vwapSlices, windowOf,
        volOf, fillVolume, iloc, pydiv, accumCost, Except.bind, zeroVolBars,
        zeroVolResult])⟩

/-- C9: the `direction` field of an order influences nothing: for every bar
sequence, size, slice count and start index, each policy returns the same
value for any two directions (in particular for buy vs sell). -/
theorem C9_direction_noninterference (df : List Bar) (size : ℚ)
    (n s : Nat) (d d' : Direction) :
    execute_twap df ⟨size, d, n⟩ s = execute_twap df ⟨size, d', n⟩ s ∧
    execute_vwap df ⟨size, d, n⟩ s = execute_vwap df ⟨size, d', n⟩ s :=
  ⟨rfl, rfl⟩

/-- C10: `load_data` raises (its fill operation is invoked with no fill
value) whenever some Volume is missing, and returns the parsed table
unchanged when none is. -/
theorem C10_loader_nan_behavior (df : List Bar) :
    (df.any (fun r => r.volume.isNone) = true →
      load_data df = .error "fillna: must specify a fill value or method") ∧
    (df.any (fun r => r.volume.isNone) = false → load_data df = .ok df) := by
  constructor
  · intro h
    simp [load_data, h, fillnaNoValue, Except.bind]
  · intro h
    simp [load_data, h]

/-- Witness for C10 on a one-row table with and without a missing volume. -/
theorem C10_loader_nan_behavior_witness :
    load_data [⟨1, 100, none⟩]
        = .error "fillna: must specify a fill value or method" ∧
    load_data [⟨1, 100, some 5⟩] = .ok [⟨1, 100, some 5⟩] :=
  ⟨(C10_loader_nan_behavior [⟨1, 100, none⟩]).1 rfl,
    (C10_loader_nan_behavior [⟨1, 100, some 5⟩]).2 rfl⟩
